import Mathlib

set_option maxRecDepth 40000
set_option maxHeartbeats 2000000

/-
  Verification of the Intelligent Traffic Routing Advisor (src/main.py).

  The program builds a Mamdani-style fuzzy control system with scikit-fuzzy:
  four antecedent "delta" variables (delta_density, delta_speed,
  delta_incident, delta_time_peak), one consequent (delta_score), fifteen
  rules, and an `advise(routeA, routeB, peak_flag)` entry point that clips
  the delta inputs to the variables' universes, runs the controller and
  thresholds the crisp score.

  The embedding below models, in exact rational arithmetic:
  - `fuzz.trimf` / `fuzz.trapmf` membership evaluation (`MF.eval`),
  - fuzzification by linear interpolation of the integer-sampled membership
    curves (`interp_membership`, scikit-fuzzy `fuzz.interp_membership`),
  - rule firing (min for `&`, max for `|`) and per-consequent-term
    max-accumulation of activations (`termCut`),
  - the universe upsampling performed by scikit-fuzzy's
    `CrispValueCalculator.find_memberships` (`crossings`, mirroring
    `_interp_universe_fast`, and `outputUniverse`, mirroring `np.union1d`
    as sort plus removal of duplicates),
  - centroid defuzzification over consecutive sample points with the exact
    per-segment area/moment case analysis of `skfuzzy.defuzz.centroid`
    (`segArea`, `segMoment`, `totalArea`, `totalMoment`),
  - the zero-total-membership failure (`assert not zero_truth_degree` in
    `skfuzzy.defuzz`, re-raised by the control system as a `ValueError`),
    modelled by `scoreFromCuts` returning `none`,
  - `advise` itself: delta computation, `np.clip`, the Python truthiness
    coercion `int(1 if peak else 0)`, the try/except conversion of compute
    faults to the `{score: 50.0, recommendation: "Error/Neutral"}` sentinel,
    the score thresholds, and Python's `round(score, 2)`.

  The variables defined in src/main.py lines 17-45 (traffic_density,
  avg_speed, incident, time_peak, route_score) are not referenced by any
  rule and are not part of the control system, so they are not embedded.

  Real numbers are embedded as ℚ (the Python floats arising here are exact
  binary fractions only up to division; all comparisons proved concretely
  are far from ties, and `round(x, 2)` is modelled as ideal decimal
  round-half-to-even).
-/

namespace TrafficAdvisor

/-- Membership function shapes: `fuzz.trimf [a, b, c]` and
`fuzz.trapmf [a, b, c, d]`. -/
inductive MF where
  | tri (a b c : ℚ)
  | trap (a b c d : ℚ)
deriving DecidableEq

/-- `fuzz.trimf [a, b, c]` at a point: the ramp `(x-a)/(b-a)` only on
`a < x < b` (hence only when `a ≠ b`), the ramp `(c-x)/(c-b)` only on
`b < x < c`, the value `1` at `x = b`, and `0` elsewhere.  Vertical edges
(`a = b` or `b = c`) therefore never divide by zero, and the degenerate
singleton `a = b = c` is `1` exactly at `b`. -/
def triEval (a b c x : ℚ) : ℚ :=
  if x = b then 1
  else if a < x ∧ x < b then (x - a) / (b - a)
  else if b < x ∧ x < c then (c - x) / (c - b)
  else 0

/-- Pointwise evaluation of a membership shape, following the scikit-fuzzy
generators: `trapmf` delegates `x ≤ b` to `trimf [a, b, b]`, `c ≤ x` to
`trimf [c, c, d]` and is `1` between. -/
def MF.eval : MF → ℚ → ℚ
  | .tri a b c, x => triEval a b c x
  | .trap a b c d, x =>
      if x ≤ b then triEval a b b x
      else if c ≤ x then triEval c c d x
      else 1

/-- The four antecedent variables of the control system
(src/main.py lines 51-54). -/
inductive FVar where
  | density | speed | incident | peak
deriving DecidableEq

/-- Terms of `delta_density` (lines 58-62). -/
def delta_density_terms : List (String × MF) :=
  [("A_much_better", .trap 50 80 200 200),
   ("A_better", .tri 20 45 70),
   ("neutral", .tri (-20) 0 20),
   ("B_better", .tri (-70) (-45) (-20)),
   ("B_much_better", .trap (-200) (-200) (-80) (-50))]

/-- Terms of `delta_speed` (lines 64-68). -/
def delta_speed_terms : List (String × MF) :=
  [("A_much_better", .trap 20 40 120 120),
   ("A_better", .tri 8 18 30),
   ("neutral", .tri (-5) 0 5),
   ("B_better", .tri (-30) (-18) (-8)),
   ("B_much_better", .trap (-120) (-120) (-40) (-20))]

/-- Terms of `delta_incident` (lines 70-74). -/
def delta_incident_terms : List (String × MF) :=
  [("A_much_better", .trap 3 5 10 10),
   ("A_better", .tri 1 (5/2) 4),
   ("neutral", .tri (-1) 0 1),
   ("B_better", .tri (-4) (-5/2) (-1)),
   ("B_much_better", .trap (-10) (-10) (-5) (-3))]

/-- Terms of `delta_time_peak` (lines 77-78): crisp singletons. -/
def delta_time_peak_terms : List (String × MF) :=
  [("offpeak", .tri 0 0 0),
   ("peak", .tri 1 1 1)]

/-- Terms of the consequent `delta_score` (lines 81-85), in source
insertion order. -/
def delta_score_terms : List (String × MF) :=
  [("strong_B", .trap 0 0 10 30),
   ("weak_B", .tri 20 35 50),
   ("neutral", .tri 45 50 55),
   ("weak_A", .tri 50 65 80),
   ("strong_A", .trap 70 85 100 100)]

/-- Lower bound of each antecedent universe (`np.arange(lo, hi+1, 1)`). -/
def FVar.lo : FVar → ℤ
  | .density => -200
  | .speed => -120
  | .incident => -10
  | .peak => 0

/-- Upper bound of each antecedent universe. -/
def FVar.hi : FVar → ℤ
  | .density => 200
  | .speed => 120
  | .incident => 10
  | .peak => 1

/-- Term table of each antecedent variable. -/
def FVar.terms : FVar → List (String × MF)
  | .density => delta_density_terms
  | .speed => delta_speed_terms
  | .incident => delta_incident_terms
  | .peak => delta_time_peak_terms

/-- `fuzz.interp_membership(universe, mf_samples, x)` with the default
`zero_outside_x=True`: linear interpolation of the membership curve sampled
at the integer points of the universe, `0` strictly outside it. -/
def interp_membership (lo hi : ℤ) (mf : ℚ → ℚ) (x : ℚ) : ℚ :=
  if x < (lo : ℚ) ∨ (hi : ℚ) < x then 0
  else mf (⌊x⌋ : ℚ) + (x - (⌊x⌋ : ℚ)) * (mf ((⌊x⌋ : ℚ) + 1) - mf (⌊x⌋ : ℚ))

/-- `np.interp` on the integer-sampled curve: like `interp_membership` but
clamping to the end samples outside the range (used when the output terms
are re-sampled on the upsampled universe). -/
def npInterp (lo hi : ℤ) (mf : ℚ → ℚ) (x : ℚ) : ℚ :=
  if x ≤ (lo : ℚ) then mf (lo : ℚ)
  else if (hi : ℚ) ≤ x then mf (hi : ℚ)
  else mf (⌊x⌋ : ℚ) + (x - (⌊x⌋ : ℚ)) * (mf ((⌊x⌋ : ℚ) + 1) - mf (⌊x⌋ : ℚ))

/-- Fuzzified membership degree of crisp input `x` in term `lbl` of
variable `v` (the fuzzification step of `ControlSystemSimulation.compute`). -/
def termDegree (v : FVar) (lbl : String) (x : ℚ) : ℚ :=
  match (FVar.terms v).lookup lbl with
  | some mf => interp_membership v.lo v.hi mf.eval x
  | none => 0

/-- The fuzzified environment: membership degree of every antecedent term
given the four crisp delta inputs. -/
def fuzzEnv (dDen dSpd dInc dPk : ℚ) : FVar → String → ℚ := fun v l =>
  termDegree v l
    (match v with
     | .density => dDen
     | .speed => dSpd
     | .incident => dInc
     | .peak => dPk)

/-- Antecedent expression of a rule: `(variable, label)` atoms combined
with `&` (min) and `|` (max), as in `skfuzzy.control.Rule`. -/
inductive FExpr where
  | atom (v : FVar) (l : String)
  | and (p q : FExpr)
  | or (p q : FExpr)
deriving DecidableEq

/-- Firing strength of an antecedent expression in a fuzzified
environment: min for AND, max for OR. -/
def FExpr.eval (env : FVar → String → ℚ) : FExpr → ℚ
  | .atom v l => env v l
  | .and p q => min (p.eval env) (q.eval env)
  | .or p q => max (p.eval env) (q.eval env)

/-- A rule: antecedent expression and the consequent `delta_score` label
(every rule in src/main.py has the single output variable `delta_score`). -/
structure FRule where
  antecedent : FExpr
  consequent : String
deriving DecidableEq

/-- The fifteen rules of src/main.py lines 90-126, in insertion order. -/
def rules : List FRule :=
  [⟨.atom .speed "A_much_better", "strong_A"⟩,
   ⟨.atom .speed "B_much_better", "strong_B"⟩,
   ⟨.atom .speed "A_better", "weak_A"⟩,
   ⟨.atom .speed "B_better", "weak_B"⟩,
   ⟨.atom .density "A_much_better", "strong_A"⟩,
   ⟨.atom .density "B_much_better", "strong_B"⟩,
   ⟨.atom .density "A_better", "weak_A"⟩,
   ⟨.atom .density "B_better", "weak_B"⟩,
   ⟨.atom .incident "A_much_better", "strong_A"⟩,
   ⟨.atom .incident "B_much_better", "strong_B"⟩,
   ⟨.atom .incident "A_better", "weak_A"⟩,
   ⟨.atom .incident "B_better", "weak_B"⟩,
   ⟨.and (.atom .peak "peak") (.atom .density "A_better"), "strong_A"⟩,
   ⟨.and (.atom .peak "peak") (.atom .density "B_better"), "strong_B"⟩,
   ⟨.and (.and (.atom .density "neutral") (.atom .speed "neutral"))
     (.atom .incident "neutral"), "neutral"⟩]

/-- Accumulated activation of one output term: scikit-fuzzy stores, per
consequent term, `fmax` of the firing strengths of the rules asserting that
term (`None` if no rule asserts it).  `List.max?` is exactly this
accumulation: `none` on the empty list, else the running binary max seeded
with the first activation. -/
def termCut (rs : List FRule) (env : FVar → String → ℚ) (lbl : String) :
    Option ℚ :=
  ((rs.filter (fun r => r.consequent == lbl)).map
    (fun r => r.antecedent.eval env)).max?

/-- `np.sign` restricted to exact rationals. -/
def qsign (q : ℚ) : ℤ :=
  if q < 0 then -1 else if q = 0 then 0 else 1

/-- One step of `_interp_universe_fast`: if the integer-sampled polyline
changes sign relative to `level` between `x1` and `x1 + 1`, the crossing
point resolved by linear interpolation (grid spacing 1).  A sign change
guarantees the two samples differ, so the division is by a nonzero
rational. -/
def crossAt (mf : ℚ → ℚ) (level : ℚ) (x1 : ℤ) : Option ℚ :=
  if qsign (mf (x1 : ℚ) - level) ≠ qsign (mf ((x1 : ℚ) + 1) - level) then
    some ((x1 : ℚ) + (level - mf (x1 : ℚ)) / (mf ((x1 : ℚ) + 1) - mf (x1 : ℚ)))
  else none

/-- `_interp_universe_fast(universe, samples, level)`: the x-values at which
the integer-sampled polyline crosses `level`, found by sign changes of
consecutive samples. -/
def crossings (lo hi : ℤ) (mf : ℚ → ℚ) (level : ℚ) : List ℚ :=
  (List.range (hi - lo).toNat).filterMap
    (fun i : ℕ => crossAt mf level (lo + (i : ℤ)))

/-- The consequent terms paired with their accumulated activation cut. -/
def outputCuts (rs : List FRule) (env : FVar → String → ℚ) :
    List (String × MF × Option ℚ) :=
  delta_score_terms.map (fun t => (t.1, t.2, termCut rs env t.1))

/-- The cut-level crossings contributed by one output term: none if the
term was never activated (`membership_value` is `None`). -/
def termCross (t : String × MF × Option ℚ) : List ℚ :=
  match t.2.2 with
  | none => []
  | some c => crossings 0 100 t.2.1.eval c

/-- The upsampled output universe of `CrispValueCalculator.find_memberships`:
`np.union1d` (sort, remove duplicates) of the integer universe 0..100 with
every cut-level crossing of every activated term. -/
def outputUniverse (cuts : List (String × MF × Option ℚ)) : List ℚ :=
  ((((List.range 101).map (fun i : ℕ => (i : ℚ))) ++
    cuts.flatMap termCross).insertionSort (· ≤ ·)).dedup

/-- One accumulation step of the output aggregation: `np.fmax` of the
accumulator with `np.fmin(cut, term_mf)`, skipping non-activated terms. -/
def aggStep (x acc : ℚ) (t : String × MF × Option ℚ) : ℚ :=
  match t.2.2 with
  | none => acc
  | some c => max acc (min c (npInterp 0 100 t.2.1.eval x))

/-- Aggregated output membership at one sample point: `np.fmax` over the
activated terms of `np.fmin(cut, term_mf)` where each term's curve is
re-sampled on the upsampled universe by `np.interp`. -/
def aggAt (cuts : List (String × MF × Option ℚ)) (x : ℚ) : ℚ :=
  cuts.foldl (aggStep x) 0

/-- Area of one segment of `skfuzzy.defuzz.centroid`, with its exact case
analysis: segments of zero height or zero width are skipped; rectangles,
the two right triangles, and the general trapezoid each get a closed
form. -/
def segArea (p1 p2 : ℚ × ℚ) : ℚ :=
  if (p1.2 = 0 ∧ p2.2 = 0) ∨ p1.1 = p2.1 then 0
  else if p1.2 = p2.2 then (p2.1 - p1.1) * p1.2
  else if p1.2 = 0 then (p2.1 - p1.1) * p2.2 / 2
  else if p2.2 = 0 then (p2.1 - p1.1) * p1.2 / 2
  else (p2.1 - p1.1) * (p1.2 + p2.2) / 2

/-- `moment * area` of one segment of `skfuzzy.defuzz.centroid`: the
closed-form centroid of the piece times its area, the quantity the Python
loop accumulates into `sum_moment_area` (same case analysis as
`segArea`). -/
def segMoment (p1 p2 : ℚ × ℚ) : ℚ :=
  if (p1.2 = 0 ∧ p2.2 = 0) ∨ p1.1 = p2.1 then 0
  else if p1.2 = p2.2 then (p2.1 - p1.1) * p1.2 * ((p1.1 + p2.1) / 2)
  else if p1.2 = 0 then
    (p2.1 - p1.1) * p2.2 / 2 * (2/3 * (p2.1 - p1.1) + p1.1)
  else if p2.2 = 0 then
    (p2.1 - p1.1) * p1.2 / 2 * (1/3 * (p2.1 - p1.1) + p1.1)
  else
    (p2.1 - p1.1) * (p1.2 + p2.2) / 2 *
      (2/3 * (p2.1 - p1.1) * (p2.2 + p1.2 / 2) / (p1.2 + p2.2) + p1.1)

/-- `sum_area` of `skfuzzy.defuzz.centroid`: the segment areas over the
consecutive pairs of sample points, summed. -/
def totalArea (pts : List (ℚ × ℚ)) : ℚ :=
  ((pts.zip pts.tail).map (fun pq => segArea pq.1 pq.2)).sum

/-- `sum_moment_area` of `skfuzzy.defuzz.centroid`. -/
def totalMoment (pts : List (ℚ × ℚ)) : ℚ :=
  ((pts.zip pts.tail).map (fun pq => segMoment pq.1 pq.2)).sum

/-- Crisp output of the controller from the accumulated cuts, or `none` for
the exceptions scikit-fuzzy raises inside `compute()`: no activated
consequent term at all (`ValueError` in `CrispValueCalculator.defuzz`), or
aggregated membership summing to zero (`assert not zero_truth_degree` in
`skfuzzy.defuzz`, re-raised as `ValueError`).  On success the score is
total moment / total area; scikit-fuzzy divides by
`np.fmax(sum_area, eps)`, which equals the plain quotient whenever any
membership is positive (the only reachable success case).
`outputPoints` pairs each upsampled universe point with the aggregated
membership sampled there. -/
def outputPoints (cuts : List (String × MF × Option ℚ)) : List (ℚ × ℚ) :=
  (outputUniverse cuts).map (fun x => (x, aggAt cuts x))

def scoreFromCuts (cuts : List (String × MF × Option ℚ)) : Option ℚ :=
  if cuts.all (fun t => t.2.2.isNone) then none
  else if ((outputPoints cuts).map Prod.snd).sum = 0 then none
  else some (totalMoment (outputPoints cuts) / totalArea (outputPoints cuts))

/-- The full inference pipeline on the four crisp (already clipped) inputs:
`routing.compute()` followed by reading `routing.output["delta_score"]`.
`none` models the `ValueError` raised inside `compute()`. -/
def computeScore (rs : List FRule) (dDen dSpd dInc dPk : ℚ) : Option ℚ :=
  scoreFromCuts (outputCuts rs (fuzzEnv dDen dSpd dInc dPk))

/-- A route record `{density, speed, incident}`. -/
structure Route where
  density : ℚ
  speed : ℚ
  incident : ℚ
deriving DecidableEq

/-- The recommendation strings returned by `advise`. -/
inductive Recommendation where
  | takeRouteA
  | takeRouteB
  | bothComparable
  | ambiguousNoRules
  | errorNeutral
deriving DecidableEq

/-- The result record of `advise`: `{score, recommendation, raw}`. -/
structure AdviseResult where
  score : ℚ
  recommendation : Recommendation
  raw : ℚ × ℚ × ℚ × ℚ
deriving DecidableEq

/-- `np.clip(x, lo, hi)`. -/
def npClip (x lo hi : ℚ) : ℚ := min (max x lo) hi

/-- `compute_delta_inputs` (src/main.py lines 137-144). -/
def compute_delta_inputs (A B : Route) (peak_flag : ℚ) : ℚ × ℚ × ℚ × ℚ :=
  (A.density - B.density, A.speed - B.speed, B.incident - A.incident,
   peak_flag)

/-- Python numeric truthiness as used in `int(1 if peak else 0)`
(line 154): zero is falsy, every other number truthy. -/
def pyTruthy (q : ℚ) : ℚ := if q = 0 then 0 else 1

/-- Ideal model of Python's `round(x, 2)`: round to the nearest multiple of
1/100, ties to even. -/
def pyRound2 (q : ℚ) : ℚ :=
  let s := q * 100
  let f : ℤ := ⌊s⌋
  let r := s - (f : ℚ)
  let n : ℤ :=
    if r < 1/2 then f
    else if 1/2 < r then f + 1
    else if f % 2 = 0 then f else f + 1
  (n : ℚ) / 100

/-- The decision mapper inlined in `advise` (lines 185-190):
`> 60` Route A, `< 40` Route B, otherwise comparable. -/
def recommend (score : ℚ) : Recommendation :=
  if score > 60 then .takeRouteA
  else if score < 40 then .takeRouteB
  else .bothComparable

/-- The four engine inputs exactly as `advise` prepares them
(lines 148-154): raw deltas, `np.clip` to each universe, and the Python
truthiness coercion of the peak flag. -/
def engineInputs (A B : Route) (peak_flag : ℚ) : ℚ × ℚ × ℚ × ℚ :=
  let d := compute_delta_inputs A B peak_flag
  (npClip d.1 (-200) 200, npClip d.2.1 (-120) 120,
   npClip d.2.2.1 (-10) 10, pyTruthy d.2.2.2)

/-- `advise(routeA, routeB, peak_flag)` (src/main.py lines 146-202).
A `ValueError` raised inside `routing.compute()` is caught by the
`except` branch and converted to the `{50.0, "Error/Neutral"}` sentinel.
The source's `"delta_score" not in routing.output` branch (line 173,
recommendation `"Ambiguous (No matching rules)"`) is unreachable: a
successful `compute()` always assigns `routing.output["delta_score"]`,
and a zero aggregate raises inside `compute()` instead.  The
recommendation is decided from the raw score; the returned score field is
`round(score, 2)`. -/
def advise (routeA routeB : Route) (peak_flag : ℚ) : AdviseResult :=
  match computeScore rules (engineInputs routeA routeB peak_flag).1
      (engineInputs routeA routeB peak_flag).2.1
      (engineInputs routeA routeB peak_flag).2.2.1
      (engineInputs routeA routeB peak_flag).2.2.2 with
  | none => ⟨50, .errorNeutral, engineInputs routeA routeB peak_flag⟩
  | some score =>
      ⟨pyRound2 score, recommend score, engineInputs routeA routeB peak_flag⟩

/-- The mutable input buffer of the module-level shared
`ControlSystemSimulation` object `routing` (src/main.py line 130): the
values last assigned to `routing.input[...]`, `none` before any call. -/
structure SimState where
  inDensity : Option ℚ
  inSpeed : Option ℚ
  inIncident : Option ℚ
  inPeak : Option ℚ
deriving DecidableEq

/-- The simulation buffer at process start: no inputs assigned yet. -/
def startSim : SimState := ⟨none, none, none, none⟩

/-- `advise` with the shared simulation object made explicit: lines 156-159
assign the four clipped inputs into the process-wide `routing.input`
buffer (overwriting whatever a previous call left there), then
`routing.compute()` reads the buffer.  If any input were still missing,
`compute()` would raise and the `except` branch would return the
`Error/Neutral` sentinel; after the four assignments that cannot happen. -/
def adviseSim (s : SimState) (routeA routeB : Route) (peak_flag : ℚ) :
    SimState × AdviseResult :=
  let i := engineInputs routeA routeB peak_flag
  let s1 := { s with inDensity := some i.1 }
  let s2 := { s1 with inSpeed := some i.2.1 }
  let s3 := { s2 with inIncident := some i.2.2.1 }
  let s4 := { s3 with inPeak := some i.2.2.2 }
  match s4.inDensity, s4.inSpeed, s4.inIncident, s4.inPeak with
  | some d1, some d2, some d3, some dp =>
      (s4,
       match computeScore rules d1 d2 d3 dp with
       | none => ⟨50, .errorNeutral, (d1, d2, d3, dp)⟩
       | some score => ⟨pyRound2 score, recommend score, (d1, d2, d3, dp)⟩)
  | _, _, _, _ => (s4, ⟨50, .errorNeutral, i⟩)

/-- The integer output universe 0..100 as rationals (the sampled
`delta_score` universe). -/
def intGrid : List ℚ := (List.range 101).map (fun i : ℕ => (i : ℚ))

/-- The accumulated cuts at engine inputs `(-100, 50, 2, 1)`, i.e. the
deltas of the spec's symmetry check `A={20,80,0}`, `B={120,30,2}`,
`peak=1` (checked against `outputCuts` below). -/
def litCuts1 : List (String × MF × Option ℚ) :=
  [("strong_B", .trap 0 0 10 30, some 1),
   ("weak_B", .tri 20 35 50, some 0),
   ("neutral", .tri 45 50 55, some 0),
   ("weak_A", .tri 50 65 80, some (2/3)),
   ("strong_A", .trap 70 85 100 100, some 1)]

/-- The accumulated cuts at the swapped inputs `(100, -50, -2, 1)`. -/
def litCuts2 : List (String × MF × Option ℚ) :=
  [("strong_B", .trap 0 0 10 30, some 1),
   ("weak_B", .tri 20 35 50, some (2/3)),
   ("neutral", .tri 45 50 55, some 0),
   ("weak_A", .tri 50 65 80, some 0),
   ("strong_A", .trap 70 85 100 100, some 1)]

/-- The accumulated cuts at engine inputs `(20, 6, 1, 0)`: every rule
fires at strength zero (each delta lies in a gap between the supports of
its variable's fuzzy sets and the peak flag is off). -/
def litCuts3 : List (String × MF × Option ℚ) :=
  [("strong_B", .trap 0 0 10 30, some 0),
   ("weak_B", .tri 20 35 50, some 0),
   ("neutral", .tri 45 50 55, some 0),
   ("weak_A", .tri 50 65 80, some 0),
   ("strong_A", .trap 70 85 100 100, some 0)]

/-- The aggregated output membership sampled on the integer grid for
`litCuts1` (checked against `outputPoints` below). -/
def litPts1 : List (ℚ × ℚ) :=
  [(0, 1), (1, 1), (2, 1), (3, 1), (4, 1), (5, 1),
   (6, 1), (7, 1), (8, 1), (9, 1), (10, 1), (11, 19/20),
   (12, 9/10), (13, 17/20), (14, 4/5), (15, 3/4), (16, 7/10), (17, 13/20),
   (18, 3/5), (19, 11/20), (20, 1/2), (21, 9/20), (22, 2/5), (23, 7/20),
   (24, 3/10), (25, 1/4), (26, 1/5), (27, 3/20), (28, 1/10), (29, 1/20),
   (30, 0), (31, 0), (32, 0), (33, 0), (34, 0), (35, 0),
   (36, 0), (37, 0), (38, 0), (39, 0), (40, 0), (41, 0),
   (42, 0), (43, 0), (44, 0), (45, 0), (46, 0), (47, 0),
   (48, 0), (49, 0), (50, 0), (51, 1/15), (52, 2/15), (53, 1/5),
   (54, 4/15), (55, 1/3), (56, 2/5), (57, 7/15), (58, 8/15), (59, 3/5),
   (60, 2/3), (61, 2/3), (62, 2/3), (63, 2/3), (64, 2/3), (65, 2/3),
   (66, 2/3), (67, 2/3), (68, 2/3), (69, 2/3), (70, 2/3), (71, 3/5),
   (72, 8/15), (73, 7/15), (74, 2/5), (75, 1/3), (76, 2/5), (77, 7/15),
   (78, 8/15), (79, 3/5), (80, 2/3), (81, 11/15), (82, 4/5), (83, 13/15),
   (84, 14/15), (85, 1), (86, 1), (87, 1), (88, 1), (89, 1),
   (90, 1), (91, 1), (92, 1), (93, 1), (94, 1), (95, 1),
   (96, 1), (97, 1), (98, 1), (99, 1), (100, 1)]

/-- The aggregated output membership sampled on the integer grid for
`litCuts2`. -/
def litPts2 : List (ℚ × ℚ) :=
  [(0, 1), (1, 1), (2, 1), (3, 1), (4, 1), (5, 1),
   (6, 1), (7, 1), (8, 1), (9, 1), (10, 1), (11, 19/20),
   (12, 9/10), (13, 17/20), (14, 4/5), (15, 3/4), (16, 7/10), (17, 13/20),
   (18, 3/5), (19, 11/20), (20, 1/2), (21, 9/20), (22, 2/5), (23, 7/20),
   (24, 3/10), (25, 1/3), (26, 2/5), (27, 7/15), (28, 8/15), (29, 3/5),
   (30, 2/3), (31, 2/3), (32, 2/3), (33, 2/3), (34, 2/3), (35, 2/3),
   (36, 2/3), (37, 2/3), (38, 2/3), (39, 2/3), (40, 2/3), (41, 3/5),
   (42, 8/15), (43, 7/15), (44, 2/5), (45, 1/3), (46, 4/15), (47, 1/5),
   (48, 2/15), (49, 1/15), (50, 0), (51, 0), (52, 0), (53, 0),
   (54, 0), (55, 0), (56, 0), (57, 0), (58, 0), (59, 0),
   (60, 0), (61, 0), (62, 0), (63, 0), (64, 0), (65, 0),
   (66, 0), (67, 0), (68, 0), (69, 0), (70, 0), (71, 1/15),
   (72, 2/15), (73, 1/5), (74, 4/15), (75, 1/3), (76, 2/5), (77, 7/15),
   (78, 8/15), (79, 3/5), (80, 2/3), (81, 11/15), (82, 4/5), (83, 13/15),
   (84, 14/15), (85, 1), (86, 1), (87, 1), (88, 1), (89, 1),
   (90, 1), (91, 1), (92, 1), (93, 1), (94, 1), (95, 1),
   (96, 1), (97, 1), (98, 1), (99, 1), (100, 1)]

end TrafficAdvisor

namespace TrafficAdvisor

/-! ### Membership shape lemmas -/

lemma triEval_nonneg (a b c x : ℚ) : 0 ≤ triEval a b c x := by
  unfold triEval
  split_ifs with h1 h2 h3
  · norm_num
  · exact div_nonneg (by linarith [h2.1]) (by linarith [h2.1, h2.2])
  · exact div_nonneg (by linarith [h3.2]) (by linarith [h3.1, h3.2])
  · exact le_rfl

lemma triEval_le_one (a b c x : ℚ) : triEval a b c x ≤ 1 := by
  unfold triEval
  split_ifs with h1 h2 h3
  · exact le_rfl
  · rw [div_le_one (by linarith [h2.1, h2.2])]
    linarith [h2.2]
  · rw [div_le_one (by linarith [h3.1, h3.2])]
    linarith [h3.1]
  · norm_num

lemma triEval_peak (a b c : ℚ) : triEval a b c b = 1 := by
  simp [triEval]

lemma triEval_outside (a b c x : ℚ) (hab : a ≤ b) (hbc : b ≤ c)
    (h : x < a ∨ c < x) : triEval a b c x = 0 := by
  unfold triEval
  split_ifs with h1 h2 h3
  · exfalso
    rcases h with h | h
    · subst h1; linarith
    · subst h1; linarith
  · exfalso
    rcases h with h | h
    · linarith [h2.1]
    · linarith [h2.2]
  · exfalso
    rcases h with h | h
    · linarith [h3.1]
    · linarith [h3.2]
  · rfl

lemma trapEval_nonneg (a b c d x : ℚ) : 0 ≤ MF.eval (.trap a b c d) x := by
  simp only [MF.eval]
  split_ifs with h1 h2
  · exact triEval_nonneg a b b x
  · exact triEval_nonneg c c d x
  · norm_num

lemma trapEval_le_one (a b c d x : ℚ) : MF.eval (.trap a b c d) x ≤ 1 := by
  simp only [MF.eval]
  split_ifs with h1 h2
  · exact triEval_le_one a b b x
  · exact triEval_le_one c c d x
  · exact le_rfl

lemma trapEval_plateau (a b c d x : ℚ) (hbx : b ≤ x) (hxc : x ≤ c) :
    MF.eval (.trap a b c d) x = 1 := by
  simp only [MF.eval]
  split_ifs with h1 h2
  · have hxb : x = b := le_antisymm h1 hbx
    subst hxb
    exact triEval_peak a x x
  · have hxc2 : x = c := le_antisymm hxc h2
    subst hxc2
    exact triEval_peak x x d
  · rfl

lemma trapEval_outside (a b c d x : ℚ) (hab : a ≤ b) (hbc : b ≤ c)
    (hcd : c ≤ d) (h : x < a ∨ d < x) : MF.eval (.trap a b c d) x = 0 := by
  simp only [MF.eval]
  rcases h with h | h
  · rw [if_pos (by linarith : x ≤ b)]
    exact triEval_outside a b b x hab le_rfl (Or.inl h)
  · rw [if_neg (by push_neg; linarith : ¬ x ≤ b), if_pos (by linarith : c ≤ x)]
    exact triEval_outside c c d x le_rfl hcd (Or.inr h)

end TrafficAdvisor

namespace TrafficAdvisor

/-! ### Score range lemmas -/

lemma aggStep_le (x acc : ℚ) (t : String × MF × Option ℚ) :
    acc ≤ aggStep x acc t := by
  unfold aggStep
  rcases t.2.2 with _ | c
  · exact le_rfl
  · exact le_max_left _ _

lemma foldl_aggStep_le (x : ℚ) :
    ∀ (cuts : List (String × MF × Option ℚ)) (acc : ℚ),
      acc ≤ cuts.foldl (aggStep x) acc
  | [], acc => le_rfl
  | t :: rest, acc => by
      rw [List.foldl_cons]
      exact le_trans (aggStep_le x acc t) (foldl_aggStep_le x rest _)

lemma aggAt_nonneg (cuts : List (String × MF × Option ℚ)) (x : ℚ) :
    0 ≤ aggAt cuts x := by
  unfold aggAt
  exact foldl_aggStep_le x cuts 0

lemma qsign_of_neg {u : ℚ} (h : u < 0) : qsign u = -1 := by
  unfold qsign
  rw [if_pos h]

lemma qsign_of_zero {u : ℚ} (h : u = 0) : qsign u = 0 := by
  unfold qsign
  rw [if_neg (by rw [h]; exact lt_irrefl 0), if_pos h]

lemma qsign_of_pos {u : ℚ} (h : 0 < u) : qsign u = 1 := by
  unfold qsign
  rw [if_neg (not_lt_of_gt h), if_neg (ne_of_gt h)]

lemma ratio_bounds {u v : ℚ} (hs : qsign u ≠ qsign v) :
    0 ≤ -u / (v - u) ∧ -u / (v - u) ≤ 1 := by
  rcases lt_trichotomy u 0 with hu | hu | hu <;>
    rcases lt_trichotomy v 0 with hv | hv | hv
  · rw [qsign_of_neg hu, qsign_of_neg hv] at hs
    exact absurd rfl hs
  · have hden : v - u = -u := by rw [hv]; ring
    rw [hden, div_self (by linarith : (-u : ℚ) ≠ 0)]
    norm_num
  · constructor
    · exact div_nonneg (by linarith) (by linarith)
    · rw [div_le_one (by linarith)]
      linarith
  · rw [hu]
    norm_num
  · rw [qsign_of_zero hu, qsign_of_zero hv] at hs
    exact absurd rfl hs
  · rw [hu]
    norm_num
  · have hrw : -u / (v - u) = u / (u - v) := by
      rw [show v - u = -(u - v) by ring, div_neg, neg_div, neg_neg]
    rw [hrw]
    constructor
    · exact div_nonneg (by linarith) (by linarith)
    · rw [div_le_one (by linarith)]
      linarith
  · have hden : v - u = -u := by rw [hv]; ring
    rw [hden, div_self (by linarith : (-u : ℚ) ≠ 0)]
    norm_num
  · rw [qsign_of_pos hu, qsign_of_pos hv] at hs
    exact absurd rfl hs

lemma crossAt_bounds {mf : ℚ → ℚ} {level q : ℚ} {x1 : ℤ}
    (h : crossAt mf level x1 = some q) :
    (x1 : ℚ) ≤ q ∧ q ≤ (x1 : ℚ) + 1 := by
  unfold crossAt at h
  split_ifs at h with hs
  have hq : q = (x1 : ℚ) + (level - mf (x1 : ℚ)) / (mf ((x1 : ℚ) + 1) - mf (x1 : ℚ)) :=
    (Option.some_inj.mp h).symm
  have e1 : level - mf (x1 : ℚ) = -(mf (x1 : ℚ) - level) := by ring
  have e2 : mf ((x1 : ℚ) + 1) - mf (x1 : ℚ) =
      (mf ((x1 : ℚ) + 1) - level) - (mf (x1 : ℚ) - level) := by ring
  have hr := ratio_bounds hs
  rw [hq, e1, e2]
  constructor
  · linarith [hr.1]
  · linarith [hr.2]

lemma crossings_bounds {mf : ℚ → ℚ} {level q : ℚ}
    (hq : q ∈ crossings 0 100 mf level) : 0 ≤ q ∧ q ≤ 100 := by
  unfold crossings at hq
  rw [List.mem_filterMap] at hq
  obtain ⟨i, hi, hf⟩ := hq
  rw [List.mem_range] at hi
  have hb := crossAt_bounds hf
  have hi2 : (i : ℚ) ≤ 99 := by
    have h99 : (i : ℕ) ≤ 99 := by omega
    exact_mod_cast h99
  push_cast at hb
  constructor
  · have hi0 : (0 : ℚ) ≤ (i : ℚ) := by positivity
    linarith [hb.1]
  · linarith [hb.2]

lemma outputUniverse_sorted (cuts : List (String × MF × Option ℚ)) :
    List.Pairwise (· ≤ ·) (outputUniverse cuts) := by
  unfold outputUniverse
  exact List.Pairwise.sublist (List.dedup_sublist _)
    (List.sorted_insertionSort _ _)

lemma outputUniverse_bounds {cuts : List (String × MF × Option ℚ)} {q : ℚ}
    (hq : q ∈ outputUniverse cuts) : 0 ≤ q ∧ q ≤ 100 := by
  unfold outputUniverse at hq
  rw [List.mem_dedup] at hq
  have hq2 := (List.perm_insertionSort (· ≤ ·) _).subset hq
  rw [List.mem_append] at hq2
  rcases hq2 with h | h
  · rw [List.mem_map] at h
    obtain ⟨i, hi, rfl⟩ := h
    rw [List.mem_range] at hi
    constructor
    · positivity
    · have : (i : ℕ) ≤ 100 := by omega
      exact_mod_cast this
  · rw [List.mem_flatMap] at h
    obtain ⟨t, ht, hq3⟩ := h
    unfold termCross at hq3
    rcases hc : t.2.2 with _ | c
    · rw [hc] at hq3
      simp at hq3
    · rw [hc] at hq3
      exact crossings_bounds hq3

lemma seg_bounds {p1 p2 : ℚ × ℚ} (h12 : p1.1 ≤ p2.1) (hx1 : 0 ≤ p1.1)
    (hx2 : p2.1 ≤ 100) (hy1 : 0 ≤ p1.2) (hy2 : 0 ≤ p2.2) :
    0 ≤ segArea p1 p2 ∧ 0 ≤ segMoment p1 p2 ∧
      segMoment p1 p2 ≤ 100 * segArea p1 p2 := by
  obtain ⟨x1, y1⟩ := p1
  obtain ⟨x2, y2⟩ := p2
  simp only at h12 hx1 hx2 hy1 hy2
  unfold segArea segMoment
  dsimp only
  split_ifs with h1 h2 h3 h4
  · norm_num
  · -- rectangle: y1 = y2
    rcases not_or.mp h1 with ⟨hnz, hne⟩
    have hx12 : x1 < x2 := lt_of_le_of_ne h12 hne
    have harea : 0 ≤ (x2 - x1) * y1 := mul_nonneg (by linarith) hy1
    refine ⟨harea, mul_nonneg harea (by linarith), ?_⟩
    have key : 0 ≤ (x2 - x1) * y1 * (100 - (x1 + x2) / 2) :=
      mul_nonneg harea (by linarith)
    nlinarith [key]
  · -- left-zero triangle: y1 = 0
    have harea : 0 ≤ (x2 - x1) * y2 / 2 :=
      div_nonneg (mul_nonneg (by linarith) hy2) (by norm_num)
    refine ⟨harea, mul_nonneg harea (by linarith), ?_⟩
    have key : 0 ≤ (x2 - x1) * y2 / 2 * (100 - (2 / 3 * (x2 - x1) + x1)) :=
      mul_nonneg harea (by linarith)
    nlinarith [key]
  · -- right-zero triangle: y2 = 0
    have harea : 0 ≤ (x2 - x1) * y1 / 2 :=
      div_nonneg (mul_nonneg (by linarith) hy1) (by norm_num)
    refine ⟨harea, mul_nonneg harea (by linarith), ?_⟩
    have key : 0 ≤ (x2 - x1) * y1 / 2 * (100 - (1 / 3 * (x2 - x1) + x1)) :=
      mul_nonneg harea (by linarith)
    nlinarith [key]
  · -- general trapezoid
    rcases not_or.mp h1 with ⟨hnz, hne⟩
    have hx12 : x1 < x2 := lt_of_le_of_ne h12 hne
    have hy1p : 0 < y1 := lt_of_le_of_ne hy1 (Ne.symm h3)
    have hy2p : 0 < y2 := lt_of_le_of_ne hy2 (Ne.symm h4)
    have hden : 0 < y1 + y2 := by linarith
    have harea : 0 ≤ (x2 - x1) * (y1 + y2) / 2 :=
      div_nonneg (mul_nonneg (by linarith) (by linarith)) (by norm_num)
    have hw0 : 0 ≤ 2 / 3 * (x2 - x1) * (y2 + y1 / 2) / (y1 + y2) :=
      div_nonneg (by nlinarith) (by linarith)
    have hwle : 2 / 3 * (x2 - x1) * (y2 + y1 / 2) / (y1 + y2) ≤ x2 - x1 := by
      rw [div_le_iff₀ hden]
      nlinarith [mul_nonneg (le_of_lt (sub_pos.mpr hx12))
        (show (0 : ℚ) ≤ 2 / 3 * y1 + 1 / 3 * y2 by linarith)]
    refine ⟨harea, mul_nonneg harea (by linarith), ?_⟩
    have key : 0 ≤ (x2 - x1) * (y1 + y2) / 2 *
        (100 - (2 / 3 * (x2 - x1) * (y2 + y1 / 2) / (y1 + y2) + x1)) :=
      mul_nonneg harea (by linarith)
    nlinarith [key]

lemma totalArea_nil : totalArea [] = 0 := rfl

lemma totalArea_single (p : ℚ × ℚ) : totalArea [p] = 0 := rfl

lemma totalMoment_nil : totalMoment [] = 0 := rfl

lemma totalMoment_single (p : ℚ × ℚ) : totalMoment [p] = 0 := rfl

lemma totalArea_cons₂ (p q : ℚ × ℚ) (rest : List (ℚ × ℚ)) :
    totalArea (p :: q :: rest) = segArea p q + totalArea (q :: rest) := rfl

lemma totalMoment_cons₂ (p q : ℚ × ℚ) (rest : List (ℚ × ℚ)) :
    totalMoment (p :: q :: rest) = segMoment p q + totalMoment (q :: rest) :=
  rfl

lemma total_bounds :
    ∀ (pts : List (ℚ × ℚ)),
      List.Pairwise (fun p q => p.1 ≤ q.1) pts →
      (∀ p ∈ pts, 0 ≤ p.1 ∧ p.1 ≤ 100 ∧ 0 ≤ p.2) →
      0 ≤ totalArea pts ∧ 0 ≤ totalMoment pts ∧
        totalMoment pts ≤ 100 * totalArea pts
  | [], _, _ => by
      rw [totalArea_nil, totalMoment_nil]
      norm_num
  | [p], _, _ => by
      rw [totalArea_single, totalMoment_single]
      norm_num
  | p :: q :: rest, hpair, hmem => by
      have h12 : p.1 ≤ q.1 :=
        (List.pairwise_cons.mp hpair).1 q (List.mem_cons_self _ _)
      have hb1 := hmem p (List.mem_cons_self _ _)
      have hb2 := hmem q (List.mem_cons_of_mem _ (List.mem_cons_self _ _))
      have ih := total_bounds (q :: rest) (List.pairwise_cons.mp hpair).2
        (fun r hr => hmem r (List.mem_cons_of_mem _ hr))
      have hseg := seg_bounds h12 hb1.1 hb2.2.1 hb1.2.2 hb2.2.2
      rw [totalArea_cons₂, totalMoment_cons₂]
      exact ⟨by linarith [hseg.1, ih.1], by linarith [hseg.2.1, ih.2.1],
        by linarith [hseg.2.2, ih.2.2]⟩

lemma outputPoints_pairwise (cuts : List (String × MF × Option ℚ)) :
    List.Pairwise (fun p q : ℚ × ℚ => p.1 ≤ q.1) (outputPoints cuts) := by
  unfold outputPoints
  exact List.Pairwise.map _ (fun a b h => h) (outputUniverse_sorted cuts)

lemma outputPoints_mem {cuts : List (String × MF × Option ℚ)} {p : ℚ × ℚ}
    (hp : p ∈ outputPoints cuts) : 0 ≤ p.1 ∧ p.1 ≤ 100 ∧ 0 ≤ p.2 := by
  unfold outputPoints at hp
  rw [List.mem_map] at hp
  obtain ⟨x, hx, rfl⟩ := hp
  have hb := outputUniverse_bounds hx
  exact ⟨hb.1, hb.2, aggAt_nonneg cuts x⟩

lemma scoreFromCuts_bounds {cuts : List (String × MF × Option ℚ)} {s : ℚ}
    (h : scoreFromCuts cuts = some s) : 0 ≤ s ∧ s ≤ 100 := by
  unfold scoreFromCuts at h
  split_ifs at h with h1 h2
  have hs : s = totalMoment (outputPoints cuts) / totalArea (outputPoints cuts) :=
    (Option.some_inj.mp h).symm
  have hb := total_bounds (outputPoints cuts) (outputPoints_pairwise cuts)
    (fun p hp => outputPoints_mem hp)
  subst hs
  constructor
  · exact div_nonneg hb.2.1 hb.1
  · rcases eq_or_lt_of_le hb.1 with hA | hA
    · have hM : totalMoment (outputPoints cuts) = 0 := by
        have h100 := hb.2.2
        rw [← hA] at h100
        linarith [hb.2.1]
      rw [hM, zero_div]
      norm_num
    · rw [div_le_iff₀ hA]
      linarith [hb.2.2]

lemma computeScore_bounds {rs : List FRule} {d1 d2 d3 dp s : ℚ}
    (h : computeScore rs d1 d2 d3 dp = some s) : 0 ≤ s ∧ s ≤ 100 := by
  unfold computeScore at h
  exact scoreFromCuts_bounds h

lemma pyRound2_bounds {q : ℚ} (h0 : 0 ≤ q) (h100 : q ≤ 100) :
    0 ≤ pyRound2 q ∧ pyRound2 q ≤ 100 := by
  unfold pyRound2
  have hs0 : (0 : ℚ) ≤ q * 100 := by linarith
  have hs1 : q * 100 ≤ 10000 := by linarith
  have hf0 : (0 : ℤ) ≤ ⌊q * 100⌋ := Int.floor_nonneg.mpr hs0
  have hfq : (⌊q * 100⌋ : ℚ) ≤ q * 100 := Int.floor_le _
  have hf1 : ⌊q * 100⌋ ≤ 10000 := by
    have : (⌊q * 100⌋ : ℚ) ≤ 10000 := le_trans hfq hs1
    exact_mod_cast this
  have hnotmax : ∀ hr : 1 / 2 ≤ q * 100 - (⌊q * 100⌋ : ℚ), ⌊q * 100⌋ ≤ 9999 := by
    intro hr
    by_contra hgt
    have heq : ⌊q * 100⌋ = 10000 := by omega
    rw [heq] at hr
    push_cast at hr
    linarith
  dsimp only
  split_ifs with hr1 hr2 hpar
  · constructor
    · positivity
    · rw [div_le_iff₀ (by norm_num : (0 : ℚ) < 100)]
      have : (⌊q * 100⌋ : ℚ) ≤ 10000 := by exact_mod_cast hf1
      linarith
  · have h9999 := hnotmax (le_of_lt hr2)
    constructor
    · have : (0 : ℚ) ≤ ((⌊q * 100⌋ + 1 : ℤ) : ℚ) := by
        push_cast
        have : (0 : ℚ) ≤ (⌊q * 100⌋ : ℚ) := by exact_mod_cast hf0
        linarith
      positivity
    · rw [div_le_iff₀ (by norm_num : (0 : ℚ) < 100)]
      have : ((⌊q * 100⌋ + 1 : ℤ) : ℚ) ≤ 10000 := by
        have : ⌊q * 100⌋ + 1 ≤ 10000 := by omega
        exact_mod_cast this
      linarith
  · constructor
    · positivity
    · rw [div_le_iff₀ (by norm_num : (0 : ℚ) < 100)]
      have : (⌊q * 100⌋ : ℚ) ≤ 10000 := by exact_mod_cast hf1
      linarith
  · have htie : 1 / 2 ≤ q * 100 - (⌊q * 100⌋ : ℚ) := by
      push_neg at hr1
      exact hr1
    have h9999 := hnotmax htie
    constructor
    · have : (0 : ℚ) ≤ ((⌊q * 100⌋ + 1 : ℤ) : ℚ) := by
        push_cast
        have : (0 : ℚ) ≤ (⌊q * 100⌋ : ℚ) := by exact_mod_cast hf0
        linarith
      positivity
    · rw [div_le_iff₀ (by norm_num : (0 : ℚ) < 100)]
      have : ((⌊q * 100⌋ + 1 : ℤ) : ℚ) ≤ 10000 := by
        have : ⌊q * 100⌋ + 1 ≤ 10000 := by omega
        exact_mod_cast this
      linarith

end TrafficAdvisor


namespace TrafficAdvisor

/-! ### Evaluation of the engine at the concrete inputs of the spec -/

lemma cuts_in1 : outputCuts rules (fuzzEnv (-100) 50 2 1) = litCuts1 := by
  with_unfolding_all decide

lemma uni_in1 : outputUniverse litCuts1 = intGrid := by
  with_unfolding_all decide

lemma pts_in1 : outputPoints litCuts1 = litPts1 := by
  unfold outputPoints
  rw [uni_in1]
  with_unfolding_all decide

lemma ysum_in1 : (litPts1.map Prod.snd).sum = 331/6 := by
  with_unfolding_all decide

lemma tA_in1 : totalArea litPts1 = 325/6 := by
  norm_num [litPts1, totalArea_cons₂, totalArea_single, segArea]

lemma tM_in1 : totalMoment litPts1 = 17675/6 := by
  norm_num [litPts1, totalMoment_cons₂, totalMoment_single, segMoment]

lemma computeScore_in1 :
    computeScore rules (-100) 50 2 1 = some (707/13) := by
  unfold computeScore
  rw [cuts_in1]
  unfold scoreFromCuts
  rw [if_neg (by with_unfolding_all decide),
    if_neg (by rw [pts_in1, ysum_in1]
               norm_num),
    pts_in1, tA_in1, tM_in1]
  norm_num

lemma cuts_in2 : outputCuts rules (fuzzEnv 100 (-50) (-2) 1) = litCuts2 := by
  with_unfolding_all decide

lemma uni_in2 : outputUniverse litCuts2 = intGrid := by
  with_unfolding_all decide

lemma pts_in2 : outputPoints litCuts2 = litPts2 := by
  unfold outputPoints
  rw [uni_in2]
  with_unfolding_all decide

lemma ysum_in2 : (litPts2.map Prod.snd).sum = 665/12 := by
  with_unfolding_all decide

lemma tA_in2 : totalArea litPts2 = 653/12 := by
  norm_num [litPts2, totalArea_cons₂, totalArea_single, segArea]

lemma tM_in2 : totalMoment litPts2 = 10543/4 := by
  norm_num [litPts2, totalMoment_cons₂, totalMoment_single, segMoment]

lemma computeScore_in2 :
    computeScore rules 100 (-50) (-2) 1 = some (31629/653) := by
  unfold computeScore
  rw [cuts_in2]
  unfold scoreFromCuts
  rw [if_neg (by with_unfolding_all decide),
    if_neg (by rw [pts_in2, ysum_in2]
               norm_num),
    pts_in2, tA_in2, tM_in2]
  norm_num

lemma cuts_in3 : outputCuts rules (fuzzEnv 20 6 1 0) = litCuts3 := by
  with_unfolding_all decide

lemma uni_in3 : outputUniverse litCuts3 = intGrid := by
  with_unfolding_all decide

lemma aggZero_in3 : ((outputPoints litCuts3).map Prod.snd).sum = 0 := by
  unfold outputPoints
  rw [uni_in3]
  with_unfolding_all decide

lemma computeScore_in3 : computeScore rules 20 6 1 0 = none := by
  unfold computeScore
  rw [cuts_in3]
  unfold scoreFromCuts
  rw [if_neg (by with_unfolding_all decide), if_pos aggZero_in3]

end TrafficAdvisor
set_option maxRecDepth 40000
set_option maxHeartbeats 2000000
namespace TrafficAdvisor

lemma engineInputs_in1 :
    engineInputs ⟨20, 80, 0⟩ ⟨120, 30, 2⟩ 1 = (-100, 50, 2, 1) := by
  with_unfolding_all decide

lemma engineInputs_in2 :
    engineInputs ⟨120, 30, 2⟩ ⟨20, 80, 0⟩ 1 = (100, -50, -2, 1) := by
  with_unfolding_all decide

lemma engineInputs_in3 :
    engineInputs ⟨20, 6, 0⟩ ⟨0, 0, 1⟩ 0 = (20, 6, 1, 0) := by
  with_unfolding_all decide

lemma pyRound2_707_13 : pyRound2 (707/13) = 2719/50 := by
  have hf : (⌊(707/13 : ℚ) * 100⌋ : ℤ) = 5438 := by
    rw [Int.floor_eq_iff]
    constructor <;> norm_num
  simp only [pyRound2]
  rw [hf]
  norm_num

lemma pyRound2_31629_653 : pyRound2 (31629/653) = 1211/25 := by
  have hf : (⌊(31629/653 : ℚ) * 100⌋ : ℤ) = 4843 := by
    rw [Int.floor_eq_iff]
    constructor <;> norm_num
  simp only [pyRound2]
  rw [hf]
  norm_num

lemma advise_in1 :
    advise ⟨20, 80, 0⟩ ⟨120, 30, 2⟩ 1 =
      ⟨2719/50, .bothComparable, (-100, 50, 2, 1)⟩ := by
  unfold advise
  rw [engineInputs_in1]
  dsimp only
  rw [computeScore_in1]
  dsimp only
  rw [pyRound2_707_13,
    show recommend (707/13) = Recommendation.bothComparable from by
      norm_num [recommend]]

lemma advise_in2 :
    advise ⟨120, 30, 2⟩ ⟨20, 80, 0⟩ 1 =
      ⟨1211/25, .bothComparable, (100, -50, -2, 1)⟩ := by
  unfold advise
  rw [engineInputs_in2]
  dsimp only
  rw [computeScore_in2]
  dsimp only
  rw [pyRound2_31629_653,
    show recommend (31629/653) = Recommendation.bothComparable from by
      norm_num [recommend]]

lemma advise_in3 :
    advise ⟨20, 6, 0⟩ ⟨0, 0, 1⟩ 0 = ⟨50, .errorNeutral, (20, 6, 1, 0)⟩ := by
  unfold advise
  rw [engineInputs_in3]
  dsimp only
  rw [computeScore_in3]

end TrafficAdvisor

set_option maxRecDepth 40000
namespace TrafficAdvisor

lemma foldl_max_char : ∀ (l : List ℚ) (x : ℚ),
    l.foldl max x = l.max?.elim x (max x)
  | [], x => rfl
  | y :: l, x => by
      have hcons : (y :: l).max? = some (l.foldl max y) := rfl
      rw [List.foldl_cons, foldl_max_char l (max x y), hcons,
        foldl_max_char l y]
      cases hm : l.max? with
      | none => simp [Option.elim]
      | some m =>
          simp only [Option.elim]
          exact max_assoc x y m

lemma max?_perm {l1 l2 : List ℚ} (h : l1.Perm l2) : l1.max? = l2.max? := by
  induction h with
  | nil => rfl
  | cons x h ih =>
      show some (List.foldl max x _) = some (List.foldl max x _)
      rw [foldl_max_char, foldl_max_char, ih]
  | swap x y l =>
      show some (List.foldl max y (x :: l)) = some (List.foldl max x (y :: l))
      rw [List.foldl_cons, List.foldl_cons, foldl_max_char, foldl_max_char,
        max_comm y x]
  | trans h1 h2 ih1 ih2 => rw [ih1, ih2]

lemma termCut_perm {rs1 rs2 : List FRule} (h : rs1.Perm rs2)
    (env : FVar → String → ℚ) (lbl : String) :
    termCut rs1 env lbl = termCut rs2 env lbl :=
  max?_perm ((h.filter _).map _)

lemma outputCuts_perm {rs1 rs2 : List FRule} (h : rs1.Perm rs2)
    (env : FVar → String → ℚ) :
    outputCuts rs1 env = outputCuts rs2 env := by
  unfold outputCuts
  exact List.map_congr_left (fun t _ => by rw [termCut_perm h])

end TrafficAdvisor

namespace TrafficAdvisor

/-! ### Claim theorems -/

/-- C1: the spec's symmetry sanity check expects `advise` to return
`TakeRouteA` for `A={density:20, speed:80, incident:0}`,
`B={density:120, speed:30, incident:2}`, `peak=1`, and `TakeRouteB` for the
swapped call (the repository's own `run_checks` encodes the first
expectation).  The code instead returns `BothComparable` in both
orientations (raw scores 707/13 ≈ 54.38 and 31629/653 ≈ 48.44): the
`delta_density` labels are inverted relative to the intent, so the
lower-density route pulls the score the wrong way. -/
theorem C1_symmetry_inputs_both_comparable :
    advise ⟨20, 80, 0⟩ ⟨120, 30, 2⟩ 1 =
      ⟨2719/50, .bothComparable, (-100, 50, 2, 1)⟩ ∧
    advise ⟨120, 30, 2⟩ ⟨20, 80, 0⟩ 1 =
      ⟨1211/25, .bothComparable, (100, -50, -2, 1)⟩ :=
  ⟨advise_in1, advise_in2⟩

/-- C2: on an input whose aggregated output membership is zero everywhere
(engine inputs `(20, 6, 1, 0)`, reached from `A={20,6,0}`, `B={0,0,1}`,
`peak=0`), the spec claims `advise` returns the `AmbiguousNoRules`
sentinel.  The code instead returns the `Error/Neutral` sentinel:
scikit-fuzzy raises inside `compute()` on a zero aggregate, the `except`
branch catches it, and the `"Ambiguous (No matching rules)"` branch at
line 173 is unreachable. -/
theorem C2_zero_aggregate_error_neutral :
    ((outputPoints (outputCuts rules (fuzzEnv 20 6 1 0))).map Prod.snd).sum
        = 0 ∧
    advise ⟨20, 6, 0⟩ ⟨0, 0, 1⟩ 0 = ⟨50, .errorNeutral, (20, 6, 1, 0)⟩ := by
  constructor
  · rw [cuts_in3]
    exact aggZero_in3
  · exact advise_in3

/-- C3: the decision mapper is a total function of the crisp score: scores
strictly above 60 map to `TakeRouteA`, strictly below 40 to `TakeRouteB`,
and the closed interval [40, 60] (including both endpoints) to
`BothComparable`. -/
theorem C3_decision_mapper_thresholds (s : ℚ) :
    (60 < s → recommend s = .takeRouteA) ∧
    (s < 40 → recommend s = .takeRouteB) ∧
    (40 ≤ s → s ≤ 60 → recommend s = .bothComparable) := by
  unfold recommend
  refine ⟨fun h => ?_, fun h => ?_, fun h1 h2 => ?_⟩
  · rw [if_pos h]
  · rw [if_neg (by push_neg; linarith), if_pos h]
  · rw [if_neg (by push_neg; linarith), if_neg (by push_neg; linarith)]

/-- Witness for C3 at the boundary scores 61, 39, 40 and 60. -/
theorem C3_decision_mapper_thresholds_witness :
    recommend 61 = .takeRouteA ∧ recommend 39 = .takeRouteB ∧
      recommend 40 = .bothComparable ∧ recommend 60 = .bothComparable :=
  ⟨(C3_decision_mapper_thresholds 61).1 (by norm_num),
   (C3_decision_mapper_thresholds 39).2.1 (by norm_num),
   (C3_decision_mapper_thresholds 40).2.2 (by norm_num) (by norm_num),
   (C3_decision_mapper_thresholds 60).2.2 (by norm_num) (by norm_num)⟩

/-- C4: for peak flags 0 and 1 (the declared input domain), the four
engine inputs are the raw deltas `A.density - B.density`,
`A.speed - B.speed`, `B.incident - A.incident`, clipped by `np.clip` to
[-200,200], [-120,120] and [-10,10] respectively, and the peak flag
itself. -/
theorem C4_engine_inputs_clipped (A B : Route) (p : ℚ)
    (hp : p = 0 ∨ p = 1) :
    engineInputs A B p =
      (npClip (A.density - B.density) (-200) 200,
       npClip (A.speed - B.speed) (-120) 120,
       npClip (B.incident - A.incident) (-10) 10, p) := by
  rcases hp with hp | hp <;> subst hp <;>
    simp [engineInputs, compute_delta_inputs, pyTruthy]

/-- Witness for C4 at the symmetry-check input. -/
theorem C4_engine_inputs_clipped_witness :
    engineInputs ⟨20, 80, 0⟩ ⟨120, 30, 2⟩ 1 =
      (npClip (20 - 120) (-200) 200, npClip (80 - 30) (-120) 120,
       npClip (2 - 0) (-10) 10, 1) :=
  C4_engine_inputs_clipped ⟨20, 80, 0⟩ ⟨120, 30, 2⟩ 1 (Or.inr rfl)

/-- C5: a computation fault inside `routing.compute()` (modelled by
`computeScore` returning `none`) is caught at the `advise` boundary and
converted to the `{50.0, Error/Neutral}` sentinel; `advise`, a total
function in this embedding, never propagates the fault. -/
theorem C5_compute_fault_error_neutral (A B : Route) (p : ℚ)
    (h : computeScore rules (engineInputs A B p).1 (engineInputs A B p).2.1
      (engineInputs A B p).2.2.1 (engineInputs A B p).2.2.2 = none) :
    advise A B p = ⟨50, .errorNeutral, engineInputs A B p⟩ := by
  unfold advise
  rw [h]

/-- Witness for C5 at the no-rule-fired input. -/
theorem C5_compute_fault_error_neutral_witness :
    computeScore rules (engineInputs ⟨20, 6, 0⟩ ⟨0, 0, 1⟩ 0).1
        (engineInputs ⟨20, 6, 0⟩ ⟨0, 0, 1⟩ 0).2.1
        (engineInputs ⟨20, 6, 0⟩ ⟨0, 0, 1⟩ 0).2.2.1
        (engineInputs ⟨20, 6, 0⟩ ⟨0, 0, 1⟩ 0).2.2.2 = none ∧
      advise ⟨20, 6, 0⟩ ⟨0, 0, 1⟩ 0 =
        ⟨50, .errorNeutral, engineInputs ⟨20, 6, 0⟩ ⟨0, 0, 1⟩ 0⟩ := by
  have h : computeScore rules (engineInputs ⟨20, 6, 0⟩ ⟨0, 0, 1⟩ 0).1
      (engineInputs ⟨20, 6, 0⟩ ⟨0, 0, 1⟩ 0).2.1
      (engineInputs ⟨20, 6, 0⟩ ⟨0, 0, 1⟩ 0).2.2.1
      (engineInputs ⟨20, 6, 0⟩ ⟨0, 0, 1⟩ 0).2.2.2 = none := by
    rw [engineInputs_in3]
    exact computeScore_in3
  exact ⟨h, C5_compute_fault_error_neutral ⟨20, 6, 0⟩ ⟨0, 0, 1⟩ 0 h⟩

/-- C6: the score field of the result of `advise` always lies in [0, 100]:
on the defuzzification path it is a rounded centroid of a nonnegative
membership curve sampled inside [0, 100], and both sentinel paths return
50. -/
theorem C6_advise_score_in_range (A B : Route) (p : ℚ) :
    0 ≤ (advise A B p).score ∧ (advise A B p).score ≤ 100 := by
  unfold advise
  cases hcs : computeScore rules (engineInputs A B p).1
      (engineInputs A B p).2.1 (engineInputs A B p).2.2.1
      (engineInputs A B p).2.2.2 with
  | none =>
      show (0 : ℚ) ≤ 50 ∧ (50 : ℚ) ≤ 100
      norm_num
  | some s =>
      show 0 ≤ pyRound2 s ∧ pyRound2 s ≤ 100
      have hb := computeScore_bounds hcs
      exact pyRound2_bounds hb.1 hb.2

/-- C7: for ordered shape parameters, triangular and trapezoidal
membership degrees lie in [0, 1], equal 1 exactly on the plateau, vanish
strictly outside the support, tolerate vertical edges without division by
zero (the scikit-fuzzy generators only form the ramp quotients when the
corresponding parameters differ), and the degenerate singleton
`a = b = c` is the indicator of its vertex. -/
theorem C7_membership_shape_properties (a b c d x : ℚ) (hab : a ≤ b)
    (hbc : b ≤ c) (hcd : c ≤ d) :
    (0 ≤ MF.eval (.tri a b c) x ∧ MF.eval (.tri a b c) x ≤ 1) ∧
    MF.eval (.tri a b c) b = 1 ∧
    ((x < a ∨ c < x) → MF.eval (.tri a b c) x = 0) ∧
    (0 ≤ MF.eval (.trap a b c d) x ∧ MF.eval (.trap a b c d) x ≤ 1) ∧
    (b ≤ x → x ≤ c → MF.eval (.trap a b c d) x = 1) ∧
    ((x < a ∨ d < x) → MF.eval (.trap a b c d) x = 0) ∧
    (a = b → b = c →
      (x = a → MF.eval (.tri a b c) x = 1) ∧
      (x ≠ a → MF.eval (.tri a b c) x = 0)) := by
  refine ⟨⟨triEval_nonneg a b c x, triEval_le_one a b c x⟩,
    triEval_peak a b c,
    fun h => triEval_outside a b c x hab hbc h,
    ⟨trapEval_nonneg a b c d x, trapEval_le_one a b c d x⟩,
    fun h1 h2 => trapEval_plateau a b c d x h1 h2,
    fun h => trapEval_outside a b c d x hab hbc hcd h,
    fun hab2 hbc2 => ⟨fun hx => ?_, fun hx => ?_⟩⟩
  · subst hab2
    subst hx
    exact triEval_peak x x c
  · subst hab2
    subst hbc2
    rcases lt_or_gt_of_ne hx with h | h
    · exact triEval_outside a a a x le_rfl le_rfl (Or.inl h)
    · exact triEval_outside a a a x le_rfl le_rfl (Or.inr h)

/-- Witness for C7 at the shape (0, 1, 2, 3) and the point 1/2. -/
theorem C7_membership_shape_properties_witness :
    0 ≤ MF.eval (.tri 0 1 2) (1/2) ∧ MF.eval (.tri 0 1 2) (1/2) ≤ 1 :=
  (C7_membership_shape_properties 0 1 2 3 (1/2) (by norm_num) (by norm_num)
    (by norm_num)).1

/-- C8: the crisp score is independent of the order of the rule list:
every rule fires independently, and the per-term accumulated activation is
a maximum, so any permutation of the fixed rule list yields the same
output of `computeScore`. -/
theorem C8_rule_order_irrelevant (rs : List FRule) (h : rs.Perm rules)
    (dDen dSpd dInc dPk : ℚ) :
    computeScore rs dDen dSpd dInc dPk =
      computeScore rules dDen dSpd dInc dPk := by
  unfold computeScore
  rw [outputCuts_perm h]

/-- Witness for C8: the reversed rule list at the symmetry-check input. -/
theorem C8_rule_order_irrelevant_witness :
    computeScore rules.reverse (-100) 50 2 1 =
      computeScore rules (-100) 50 2 1 :=
  C8_rule_order_irrelevant rules.reverse (List.reverse_perm rules)
    (-100) 50 2 1

/-- C9 counterexample: `advise` does not write only to a fresh
call-scoped buffer: lines 156-159 of src/main.py assign the clipped inputs
into the process-wide shared `ControlSystemSimulation` object `routing`,
so after one call the shared simulation state differs from its initial
state and is observable by the next call. -/
theorem C9_advise_writes_shared_sim_state :
    (adviseSim startSim ⟨20, 80, 0⟩ ⟨120, 30, 2⟩ 1).1 ≠ startSim := by
  with_unfolding_all decide

/-- C9 (amended): the rule and variable definitions are untouched and the
result (and the post-call buffer) of `advise` is a pure function of the
call's arguments — the pre-existing contents of the shared simulation
buffer never influence it, because every call overwrites all four input
slots before computing. -/
theorem C9_advise_result_independent_of_sim_state (s t : SimState)
    (A B : Route) (p : ℚ) :
    adviseSim s A B p = adviseSim t A B p ∧
      (adviseSim s A B p).2 = advise A B p := by
  refine ⟨rfl, ?_⟩
  unfold adviseSim advise
  dsimp only

/-- C10: `advise` accepts any numeric peak flag: the Python truthiness
coercion `int(1 if peak else 0)` maps every nonzero flag to the crisp
input 1 and zero to 0, the result equals the result at the coerced flag,
the coerced value (not the original) is the fourth component of the
returned raw tuple, and no flag is rejected. -/
theorem C10_peak_flag_coerced (A B : Route) (p : ℚ) :
    advise A B p = advise A B (pyTruthy p) ∧
    (advise A B p).raw.2.2.2 = pyTruthy p ∧
    (pyTruthy p = 0 ∨ pyTruthy p = 1) := by
  have hidem : pyTruthy (pyTruthy p) = pyTruthy p := by
    unfold pyTruthy
    by_cases h : p = 0 <;> simp [h]
  have hinputs : engineInputs A B (pyTruthy p) = engineInputs A B p := by
    unfold engineInputs compute_delta_inputs
    dsimp only
    rw [hidem]
  refine ⟨?_, ?_, ?_⟩
  · unfold advise
    rw [hinputs]
  · have hraw : (advise A B p).raw = engineInputs A B p := by
      unfold advise
      cases computeScore rules (engineInputs A B p).1 (engineInputs A B p).2.1
          (engineInputs A B p).2.2.1 (engineInputs A B p).2.2.2 <;> rfl
    rw [hraw]
    rfl
  · by_cases h : p = 0
    · exact Or.inl (by simp [pyTruthy, h])
    · exact Or.inr (by simp [pyTruthy, h])

end TrafficAdvisor
